import Mathlib

/-!
Verification of the Blender SGL (Sega Graphics Library) MDL exporter.

The development shallowly embeds the exporter found in `src/__init__.py`:
Python strings are modelled as lists of character codes (`List ℕ`), Python
floats supplied by the Blender host as exact rationals (`ℚ`), Python's
`int()` as truncation toward zero, and Python `set` objects as
insertion-ordered duplicate-free lists.  Each definition mirrors one
function (or one loop) of the source file; the line numbers of the
source are recorded in the doc comments.
-/

namespace SGLExport

section RatComp
attribute [local semireducible] Rat.mul Rat.add Rat.sub Rat.inv

/-! ## Python string primitives -/

/-- Whitespace character codes recognised by Python's `str.split` and the
regex class `\s` (ASCII range): space, tab, LF, VT, FF, CR. -/
def isSpaceCode (c : ℕ) : Bool :=
  decide (c = 32 ∨ c = 9 ∨ c = 10 ∨ c = 11 ∨ c = 12 ∨ c = 13)

/-- Character codes matched by `[A-Za-z0-9]`. -/
def isAlnumCode (c : ℕ) : Bool :=
  decide (65 ≤ c ∧ c ≤ 90) || decide (97 ≤ c ∧ c ≤ 122) || decide (48 ≤ c ∧ c ≤ 57)

/-- Character codes kept by the sanitiser's class `[A-Za-z0-9\s]`. -/
def isKeepCode (c : ℕ) : Bool := isAlnumCode c || isSpaceCode c

/-- BaseExporter._safe_name (src line 20-21): `re.sub(r'[^A-Za-z0-9\s]', '', name)`,
i.e. every character outside `[A-Za-z0-9\s]` is removed. -/
def safe_name (s : List ℕ) : List ℕ := s.filter isKeepCode

/-- Python `str.upper` on one ASCII character code. -/
def pyUpperChar (c : ℕ) : ℕ := if 97 ≤ c ∧ c ≤ 122 then c - 32 else c

/-- Python `str.lower` on one ASCII character code. -/
def pyLowerChar (c : ℕ) : ℕ := if 65 ≤ c ∧ c ≤ 90 then c + 32 else c

/-- Python `str.upper`. -/
def pyUpper (s : List ℕ) : List ℕ := s.map pyUpperChar

/-- Python `str.lower`. -/
def pyLower (s : List ℕ) : List ℕ := s.map pyLowerChar

/-- Python `str.capitalize`: first character uppercased, the rest lowercased. -/
def pyCapitalize : List ℕ → List ℕ
  | [] => []
  | c :: cs => pyUpperChar c :: cs.map pyLowerChar

/-- Python `''.join(s.split())`: removal of every whitespace character. -/
def stripWs (s : List ℕ) : List ℕ := s.filter (fun c => !isSpaceCode c)

theorem isKeepCode_pyUpperChar {c : ℕ} (h : isKeepCode c = true) :
    isKeepCode (pyUpperChar c) = true := by
  simp only [isKeepCode, isAlnumCode, isSpaceCode, pyUpperChar, Bool.or_eq_true,
    decide_eq_true_eq] at h ⊢
  split <;> omega

theorem isKeepCode_pyLowerChar {c : ℕ} (h : isKeepCode c = true) :
    isKeepCode (pyLowerChar c) = true := by
  simp only [isKeepCode, isAlnumCode, isSpaceCode, pyLowerChar, Bool.or_eq_true,
    decide_eq_true_eq] at h ⊢
  split <;> omega

theorem safe_name_idem (s : List ℕ) : safe_name (safe_name s) = safe_name s := by
  simp [safe_name, List.filter_filter]

theorem mem_safe_name_keep {s : List ℕ} {c : ℕ} (h : c ∈ safe_name s) :
    isKeepCode c = true := (List.mem_filter.mp h).2

/-- Sanitising a string whose characters are all kept is a no-op. -/
theorem safe_name_eq_self {s : List ℕ} (h : ∀ c ∈ s, isKeepCode c = true) :
    safe_name s = s :=
  List.filter_eq_self.mpr h

theorem pyCapitalize_keep {s : List ℕ} (h : ∀ c ∈ s, isKeepCode c = true) :
    ∀ c ∈ pyCapitalize s, isKeepCode c = true := by
  cases s with
  | nil => simp [pyCapitalize]
  | cons a t =>
    intro c hc
    rcases List.mem_cons.mp hc with rfl | hc
    · exact isKeepCode_pyUpperChar (h a (List.mem_cons_self a t))
    · rcases List.mem_map.mp hc with ⟨d, hd, rfl⟩
      exact isKeepCode_pyLowerChar (h d (List.mem_cons_of_mem a hd))

/-! ## Python numeric primitives -/

/-- Python `int()` applied to an exact rational: truncation toward zero
(`Int.tdiv` is T-division, i.e. rounding toward zero). -/
def pyInt (q : ℚ) : ℤ := q.num.tdiv q.den

theorem pyInt_nonneg {q : ℚ} (h : 0 ≤ q) : 0 ≤ pyInt q :=
  Int.tdiv_nonneg (Rat.num_nonneg.mpr h) (by exact_mod_cast Nat.le_of_lt q.pos)

theorem pyInt_le_of_le {q : ℚ} (hq : 0 ≤ q) (h : q ≤ 31) : pyInt q ≤ 31 := by
  have hn : 0 ≤ q.num := Rat.num_nonneg.mpr hq
  have hd : (0 : ℤ) < (q.den : ℤ) := by exact_mod_cast q.pos
  have hdq : ((q.den : ℚ)) ≠ 0 := by
    have := q.pos
    exact_mod_cast by omega
  have hqnum : (q.num : ℚ) = q * (q.den : ℚ) := by
    field_simp [Rat.num_div_den q]
  have hnumQ : (q.num : ℚ) ≤ 31 * (q.den : ℚ) := by
    rw [hqnum]
    have : (0 : ℚ) ≤ (q.den : ℚ) := by positivity
    exact mul_le_mul_of_nonneg_right h this
  have hnum : q.num ≤ 31 * (q.den : ℤ) := by exact_mod_cast hnumQ
  have ht : pyInt q = q.num / (q.den : ℤ) := Int.tdiv_eq_ediv hn (le_of_lt hd)
  rw [ht]
  have : q.num / (q.den : ℤ) < 32 := by
    rw [Int.ediv_lt_iff_lt_mul hd]
    omega
  omega

/-! ## Scene data model (the host-facing read interface) -/

/-- One mesh polygon as read from the Blender host: vertex indices in
authored order, the face normal, whether the active uv layer binds an image
to this face (`uv_textures.active.data[poly.index].image`), and the vertex
colours of its loops in loop-visit order (`poly.loop_indices`). -/
structure Polygon where
  vertices : List ℕ
  normal : ℚ × ℚ × ℚ
  image : Bool
  loopColors : List (ℚ × ℚ × ℚ)
deriving DecidableEq

/-- One Blender mesh object as read by the exporter. -/
structure MeshObject where
  name : List ℕ
  hasParent : Bool
  uvActive : Bool
  vcolActive : Bool
  polys : List Polygon
deriving DecidableEq

/-! ## ColorCodec (claim C8) -/

/-- Pixel packing of TextureFileWriter._bake_sprites (src lines 505-509):
each channel is `int(channel * 31)` and the result is
`(b << 10) | (g << 5) | r | 0x8000`.  On the documented domain `[0, 1]` the
truncated channels are nonnegative, so they are the naturals
`(pyInt (channel * 31)).toNat`. -/
def encodeColor (r g b : ℚ) : ℕ :=
  ((pyInt (b * 31)).toNat <<< 10) ||| ((pyInt (g * 31)).toNat <<< 5) |||
    (pyInt (r * 31)).toNat ||| 0x8000

/-- Bit-packing three 5-bit fields and the marker bit by `|||` is the same
as summing the shifted fields. -/
theorem pack_lor_eq_add : ∀ a < 32, ∀ b < 32, ∀ c < 32,
    ((a : ℕ) <<< 10) ||| (b <<< 5) ||| c ||| 32768 =
      a * 1024 + b * 32 + c + 32768 := by decide

theorem pyInt_mul31_bounds {q : ℚ} (h0 : 0 ≤ q) (h1 : q ≤ 1) :
    0 ≤ pyInt (q * 31) ∧ pyInt (q * 31) ≤ 31 := by
  have hq0 : 0 ≤ q * 31 := by positivity
  have hq1 : q * 31 ≤ 31 := by nlinarith
  exact ⟨pyInt_nonneg hq0, pyInt_le_of_le hq0 hq1⟩

/-- C8: for every RGB triple with each channel a rational in [0,1], the
packed colour equals `(b<<10)|(g<<5)|r|0x8000` with each channel scaled by
31 and truncated toward zero to an integer in [0,31]; equivalently it is
the sum of the disjoint shifted fields, and the high bit 0x8000 is always
set.  Determinism and idempotence on identical inputs hold because
`encodeColor` is a pure function. -/
theorem color_codec_spec (r g b : ℚ)
    (hr0 : 0 ≤ r) (hr1 : r ≤ 1) (hg0 : 0 ≤ g) (hg1 : g ≤ 1)
    (hb0 : 0 ≤ b) (hb1 : b ≤ 1) :
    (pyInt (r * 31)).toNat ≤ 31 ∧ (pyInt (g * 31)).toNat ≤ 31 ∧
    (pyInt (b * 31)).toNat ≤ 31 ∧
    encodeColor r g b =
      (pyInt (b * 31)).toNat * 1024 + (pyInt (g * 31)).toNat * 32 +
        (pyInt (r * 31)).toNat + 0x8000 ∧
    0x8000 ≤ encodeColor r g b := by
  obtain ⟨hrl, hru⟩ := pyInt_mul31_bounds hr0 hr1
  obtain ⟨hgl, hgu⟩ := pyInt_mul31_bounds hg0 hg1
  obtain ⟨hbl, hbu⟩ := pyInt_mul31_bounds hb0 hb1
  have hr31 : (pyInt (r * 31)).toNat ≤ 31 := by omega
  have hg31 : (pyInt (g * 31)).toNat ≤ 31 := by omega
  have hb31 : (pyInt (b * 31)).toNat ≤ 31 := by omega
  have hpack := pack_lor_eq_add (pyInt (b * 31)).toNat (by omega)
    (pyInt (g * 31)).toNat (by omega) (pyInt (r * 31)).toNat (by omega)
  refine ⟨hr31, hg31, hb31, ?_, ?_⟩
  · simpa [encodeColor] using hpack
  · have : encodeColor r g b =
        (pyInt (b * 31)).toNat * 1024 + (pyInt (g * 31)).toNat * 32 +
          (pyInt (r * 31)).toNat + 0x8000 := by simpa [encodeColor] using hpack
    omega

/-- Concrete check of `color_codec_spec` at r = 1/2, g = 0, b = 1: the
channels truncate to 15, 0, 31 and the packed word is 0xFC0F. -/
theorem color_codec_spec_witness :
    (0 : ℚ) ≤ mkRat 1 2 ∧ mkRat 1 2 ≤ 1 ∧
    encodeColor (mkRat 1 2) 0 1 = 0xFC0F ∧
    ((pyInt ((mkRat 1 2) * 31)).toNat ≤ 31 ∧ (pyInt ((0 : ℚ) * 31)).toNat ≤ 31 ∧
     (pyInt ((1 : ℚ) * 31)).toNat ≤ 31 ∧
     encodeColor (mkRat 1 2) 0 1 =
       (pyInt ((1 : ℚ) * 31)).toNat * 1024 + (pyInt ((0 : ℚ) * 31)).toNat * 32 +
         (pyInt ((mkRat 1 2) * 31)).toNat + 0x8000 ∧
     0x8000 ≤ encodeColor (mkRat 1 2) 0 1) :=
  ⟨by decide, by decide, by decide,
    color_codec_spec (mkRat 1 2) 0 1 (by decide) (by decide) (by decide)
      (by decide) (by decide) (by decide)⟩

/-! ## PaletteBuilder (claim C1) -/

/-- One RGBA pixel sample returned by the host's bake. -/
def Pixel : Type := ℚ × ℚ × ℚ × ℚ

/-- Python `set.add` (src line 510, `color_palette.add(color)`), on the model
of a Python set as an insertion-ordered duplicate-free list. -/
def addColor (s : List ℕ) (c : ℕ) : List ℕ := if c ∈ s then s else s ++ [c]

/-- Pixel loop of _bake_sprites for one baked face (src lines 505-522): each
pixel's first three channels are packed (the alpha at offset x+3 is never
read) and added to the palette set; after the face's pixels, the set is
reduced to 256 entries when it exceeds 256
(`color_palette = set(list(color_palette)[:256])`, modelled with the
insertion order standing in for CPython's unspecified set order). -/
def truncatePalette (s : List ℕ) : List ℕ :=
  if 256 < s.length then s.take 256 else s

def bakeFace (s : List ℕ) (pix : List Pixel) : List ℕ :=
  truncatePalette (pix.foldl (fun acc p => addColor acc (encodeColor p.1 p.2.1 p.2.2.1)) s)

/-- Face loop of _bake_sprites (src lines 489-550), palette component: a face
whose uv image is None is skipped, each other face contributes its baked
pixel buffer.  The set starts empty for each object (line 477). -/
def bakeObjectPalette (faces : List (Option (List Pixel))) : List ℕ :=
  faces.foldl (fun s f => match f with | none => s | some pix => bakeFace s pix) []

/-- Object loop of write_texture_data (src lines 323-346): for every mesh
object with an active uv layer, the object's baked colours are merged into
the run-wide set (`colour_palette.update(new_colours)`, line 346) with no
further size check.  Each list element is one object: the flag models
`obj.data.uv_textures.active is not None` and the faces carry the baked
pixel buffers. -/
def runPalette (objs : List (Bool × List (Option (List Pixel)))) : List ℕ :=
  objs.foldl (fun acc o => if o.1 then (bakeObjectPalette o.2).foldl addColor acc else acc) []

/-- TextureFileWriter._write_colour_palette (src lines 556-565): the
accumulated palette is sorted ascending (`sorted(colour_palette)`) and
emitted row by row. -/
def write_colour_palette (palette : List ℕ) : List ℕ :=
  List.insertionSort (· ≤ ·) palette

theorem addColor_nodup {s : List ℕ} (h : s.Nodup) (c : ℕ) : (addColor s c).Nodup := by
  unfold addColor
  split
  · exact h
  · rename_i hc
    refine List.nodup_append.mpr ⟨h, List.nodup_singleton c, ?_⟩
    intro a ha hb
    simp only [List.mem_singleton] at hb
    subst hb
    exact hc ha

theorem foldl_addColor_nodup {s : List ℕ} (h : s.Nodup) (l : List ℕ) :
    (l.foldl addColor s).Nodup := by
  induction l generalizing s with
  | nil => exact h
  | cons c t ih => exact ih (addColor_nodup h c)

theorem truncatePalette_nodup {s : List ℕ} (h : s.Nodup) : (truncatePalette s).Nodup := by
  unfold truncatePalette
  split
  · exact ((List.take_sublist _ _).nodup) h
  · exact h

theorem truncatePalette_length_le (s : List ℕ) : (truncatePalette s).length ≤ 256 := by
  unfold truncatePalette
  split
  · simp
  · omega

theorem bakeFace_nodup {s : List ℕ} (h : s.Nodup) (pix : List Pixel) :
    (bakeFace s pix).Nodup := by
  refine truncatePalette_nodup ?_
  induction pix generalizing s with
  | nil => exact h
  | cons p t ih => exact ih (addColor_nodup h _)

theorem bakeFace_length_le (s : List ℕ) (pix : List Pixel) :
    (bakeFace s pix).length ≤ 256 :=
  truncatePalette_length_le _

theorem bakeObjectPalette_nodup (faces : List (Option (List Pixel))) :
    (bakeObjectPalette faces).Nodup := by
  unfold bakeObjectPalette
  have : ∀ (s : List ℕ), s.Nodup →
      (faces.foldl (fun s f => match f with | none => s | some pix => bakeFace s pix) s).Nodup := by
    induction faces with
    | nil => intro s hs; exact hs
    | cons f t ih =>
      intro s hs
      cases f with
      | none => exact ih s hs
      | some pix => exact ih _ (bakeFace_nodup hs pix)
  exact this [] List.nodup_nil

/-- After every face (hence at the end of each object) the palette set holds
at most 256 colours: the in-loop truncation repairs any overflow. -/
theorem bakeObjectPalette_length_le (faces : List (Option (List Pixel))) :
    (bakeObjectPalette faces).length ≤ 256 := by
  unfold bakeObjectPalette
  have : ∀ (s : List ℕ), s.length ≤ 256 →
      (faces.foldl (fun s f => match f with | none => s | some pix => bakeFace s pix) s).length
        ≤ 256 := by
    induction faces with
    | nil => intro s hs; exact hs
    | cons f t ih =>
      intro s hs
      cases f with
      | none => exact ih s hs
      | some pix => exact ih _ (bakeFace_length_le s pix)
  exact this [] (by simp)

theorem runPalette_nodup (objs : List (Bool × List (Option (List Pixel)))) :
    (runPalette objs).Nodup := by
  unfold runPalette
  have : ∀ (acc : List ℕ), acc.Nodup →
      (objs.foldl
        (fun acc o => if o.1 then (bakeObjectPalette o.2).foldl addColor acc else acc)
        acc).Nodup := by
    induction objs with
    | nil => intro acc h; exact h
    | cons o t ih =>
      intro acc h
      show (t.foldl _ (if o.1 = true then (bakeObjectPalette o.2).foldl addColor acc else acc)).Nodup
      by_cases ho : o.1 = true
      · rw [if_pos ho]
        exact ih _ (foldl_addColor_nodup h _)
      · rw [if_neg ho]
        exact ih _ h
  exact this [] List.nodup_nil

/-- Baked pixel buffer yielding 140 distinct packed colours with blue
channel 0 (channel value i/31 truncates exactly to i). -/
def demoPixA : List Pixel :=
  (List.range 140).map (fun i => (mkRat (i % 32) 31, mkRat (i / 32) 31, 0, 1))

/-- Baked pixel buffer yielding 140 distinct packed colours with blue
channel 1, disjoint from the colours of demoPixA. -/
def demoPixB : List Pixel :=
  (List.range 140).map (fun i => (mkRat (i % 32) 31, mkRat (i / 32) 31, 1, 1))

set_option maxRecDepth 100000 in
/-- C1 as stated is false on the code: the 256-colour cap of _bake_sprites
(src lines 520-522) is applied only to the per-object set, while
write_texture_data merges the per-object sets into the run-wide palette
(line 346) with no cap, so two textured objects producing 140 distinct
colours each yield an emitted palette of 280 entries, exceeding 256 even
though the run produced more than 256 unique colours. -/
theorem palette_builder_claim_counterexample :
    (write_colour_palette (runPalette
      [(true, [some demoPixA]), (true, [some demoPixB])])).length = 280 ∧
    ¬ ((write_colour_palette (runPalette
      [(true, [some demoPixA]), (true, [some demoPixB])])).length ≤ 256) := by
  have h : (write_colour_palette (runPalette
      [(true, [some demoPixA]), (true, [some demoPixB])])).length = 280 := by decide
  exact ⟨h, by omega⟩

/-- C1 amended: the emitted palette table is sorted ascending with no
duplicates, and each single object's palette contribution holds at most 256
entries (the overflow truncation keeps an unspecified 256-element subset of
the set, not the first-seen values); the union across objects is merged
without a cap and may therefore exceed 256 entries. -/
theorem palette_builder_amended (objs : List (Bool × List (Option (List Pixel))))
    (faces : List (Option (List Pixel))) :
    List.Sorted (· ≤ ·) (write_colour_palette (runPalette objs)) ∧
    (write_colour_palette (runPalette objs)).Nodup ∧
    (bakeObjectPalette faces).length ≤ 256 := by
  refine ⟨List.sorted_insertionSort _ _, ?_, bakeObjectPalette_length_le faces⟩
  exact ((List.perm_insertionSort _ _).nodup_iff).mpr (runPalette_nodup objs)

/-! ## GeometryEncoder (claim C3) -/

/-- One line of the POLYGON array block: either a polygon record
(`NORMAL(...), VERTICES(a,b,c,d)`) or the in-place comment marker
`//CANNOT CONVERT THIS FACE!` written for an unsupported polygon (which is
additionally flagged via `poly.select = True` and never encoded). -/
inductive PolyEntry where
  | record (normal : ℚ × ℚ × ℚ) (idxs : List ℕ)
  | marker
deriving DecidableEq

/-- MDLExporter._write_polygons (src lines 114-132): the array is declared
with length `len(polygons)`; a 4-vertex polygon emits its 4 indices in
authored order, a 3-vertex polygon emits its 3 indices with the first
repeated in the 4th slot, and any other vertex count emits the comment
marker and processing continues with the next polygon. -/
def write_polygons (polys : List Polygon) : ℕ × List PolyEntry :=
  (polys.length,
    polys.map fun p =>
      if p.vertices.length = 4 then
        .record p.normal [p.vertices.getD 0 0, p.vertices.getD 1 0, p.vertices.getD 2 0,
          p.vertices.getD 3 0]
      else if p.vertices.length = 3 then
        .record p.normal [p.vertices.getD 0 0, p.vertices.getD 1 0, p.vertices.getD 2 0,
          p.vertices.getD 0 0]
      else .marker)

/-- Geometry encoding of one polygon as the spec words it: quads keep their
vertex list, triangles append their first index, anything else is only
flagged. -/
def specPolyEntry (p : Polygon) : PolyEntry :=
  if p.vertices.length = 4 then .record p.normal p.vertices
  else if p.vertices.length = 3 then .record p.normal (p.vertices ++ [p.vertices.headD 0])
  else .marker

/-- Number of vertex indices carried by an emitted entry (none for the
marker of a skipped polygon). -/
def entryIdxCount : PolyEntry → Option ℕ
  | .record _ idxs => some idxs.length
  | .marker => none

theorem getD_eq_self_of_length_four {l : List ℕ} (h : l.length = 4) :
    [l.getD 0 0, l.getD 1 0, l.getD 2 0, l.getD 3 0] = l := by
  match l, h with
  | [a, b, c, d], _ => rfl

theorem getD_eq_self_of_length_three {l : List ℕ} (h : l.length = 3) :
    [l.getD 0 0, l.getD 1 0, l.getD 2 0, l.getD 0 0] = l ++ [l.headD 0] := by
  match l, h with
  | [a, b, c], _ => rfl

/-- C3: the geometry encoder declares and emits exactly one entry per input
polygon (count preserved, index-aligned); each entry agrees with the spec's
wording — quads carry their 4 indices in authored order, triangles their 3
indices with the first repeated in the 4th slot, and polygons of any other
vertex count are not encoded (marker, no indices) while processing
continues; every encoded record carries exactly 4 indices. -/
theorem geometry_encoder_spec (polys : List Polygon) :
    (write_polygons polys).1 = polys.length ∧
    (write_polygons polys).2.length = polys.length ∧
    (write_polygons polys).2 = polys.map specPolyEntry ∧
    ∀ p : Polygon, entryIdxCount (specPolyEntry p) =
      if p.vertices.length = 4 ∨ p.vertices.length = 3 then some 4 else none := by
  refine ⟨rfl, by simp [write_polygons], ?_, ?_⟩
  · unfold write_polygons
    simp only
    refine List.map_congr_left ?_
    intro p _
    unfold specPolyEntry
    by_cases h4 : p.vertices.length = 4
    · rw [if_pos h4, if_pos h4, getD_eq_self_of_length_four h4]
    · by_cases h3 : p.vertices.length = 3
      · rw [if_neg h4, if_pos h3, if_neg h4, if_pos h3, getD_eq_self_of_length_three h3]
      · rw [if_neg h4, if_neg h3, if_neg h4, if_neg h3]
  · intro p
    unfold specPolyEntry entryIdxCount
    by_cases h4 : p.vertices.length = 4
    · simp [h4]
    · by_cases h3 : p.vertices.length = 3
      · simp [h4, h3]
      · simp [h4, h3]

/-! ## AttributeResolver and the texture index counter (claims C4 and C2) -/

/-- Colour quantisation of one loop colour (src lines 151-153):
`int(channel * 31)` per channel. -/
def quantColor (c : ℚ × ℚ × ℚ) : ℤ × ℤ × ℤ :=
  (pyInt (c.1 * 31), pyInt (c.2.1 * 31), pyInt (c.2.2 * 31))

/-- Colour resolution inside _write_attributes (src lines 141-153): r, g, b
start at 31 each and, when the mesh has an active vertex-colour layer, are
overwritten by every loop's quantised colour in turn, so the last visited
loop wins. -/
def attrColor (vcolActive : Bool) (p : Polygon) : ℤ × ℤ × ℤ :=
  if vcolActive then p.loopColors.foldl (fun _ c => quantColor c) (31, 31, 31)
  else (31, 31, 31)

/-- A polygon references a texture when the uv layer is active and the
face's image is set (src line 159). -/
def polyTextured (uvActive : Bool) (p : Polygon) : Bool := uvActive && p.image

/-- One row of the ATTR table: the texture reference (`some id` standing for
`<TEXDEF>+id`, `none` for `No_Texture`) and the C_RGB colour.  The sprite
and mode fields of the source row are functions of `texture.isSome` alone
(lines 160-167) and are omitted. -/
structure AttrEntry where
  texture : Option ℕ
  colour : ℤ × ℤ × ℤ
deriving DecidableEq

/-- Polygon loop of _write_attributes (src lines 140-171) threading the
exporter instance's texture_id: a textured polygon takes the current
counter value and increments it (line 163); an untextured one leaves the
counter unchanged. -/
def attrRows (uvActive vcolActive : Bool) : List Polygon → ℕ → List AttrEntry × ℕ
  | [], t => ([], t)
  | p :: ps, t =>
    if polyTextured uvActive p then
      let rest := attrRows uvActive vcolActive ps (t + 1)
      (⟨some t, attrColor vcolActive p⟩ :: rest.1, rest.2)
    else
      let rest := attrRows uvActive vcolActive ps t
      (⟨none, attrColor vcolActive p⟩ :: rest.1, rest.2)

/-- MDLExporter._write_attributes (src lines 134-173) for one mesh object. -/
def write_attributes (o : MeshObject) (t : ℕ) : List AttrEntry × ℕ :=
  attrRows o.uvActive o.vcolActive o.polys t

/-- Colour rule as the spec words it: full white without an active
vertex-colour layer, otherwise the last visited loop's colour quantised
(still white when the layer exists but the polygon has no loops). -/
def specAttrColor (vcolActive : Bool) (p : Polygon) : ℤ × ℤ × ℤ :=
  if vcolActive then (p.loopColors.getLast?).elim (31, 31, 31) quantColor
  else (31, 31, 31)

theorem foldl_const_getLast {α β : Type} (f : α → β) (init : β) (l : List α) :
    l.foldl (fun _ c => f c) init = (l.getLast?).elim init f := by
  induction l generalizing init with
  | nil => rfl
  | cons a t ih =>
    cases t with
    | nil => rfl
    | cons b u =>
      have := ih (f a)
      simpa [List.foldl_cons, List.getLast?_cons_cons] using this

theorem attrColor_eq_spec (vcolActive : Bool) (p : Polygon) :
    attrColor vcolActive p = specAttrColor vcolActive p := by
  unfold attrColor specAttrColor
  by_cases hv : vcolActive = true
  · simp only [hv, if_true]
    exact foldl_const_getLast quantColor (31, 31, 31) p.loopColors
  · simp [hv]

theorem attrRows_length (uv vc : Bool) (ps : List Polygon) (t : ℕ) :
    (attrRows uv vc ps t).1.length = ps.length := by
  induction ps generalizing t with
  | nil => rfl
  | cons p ps ih =>
    unfold attrRows
    split
    · simpa using ih (t + 1)
    · simpa using ih t

theorem attrRows_colours (uv vc : Bool) (ps : List Polygon) (t : ℕ) :
    (attrRows uv vc ps t).1.map AttrEntry.colour = ps.map (specAttrColor vc) := by
  induction ps generalizing t with
  | nil => rfl
  | cons p ps ih =>
    unfold attrRows
    split
    · simpa [attrColor_eq_spec] using ih (t + 1)
    · simpa [attrColor_eq_spec] using ih t

/-- C4: the attribute table of a mesh holds exactly one entry per input
polygon, index-aligned with the polygon array (which also holds one entry
per polygon); each entry's colour is full white (31,31,31) when the mesh
has no active vertex-colour layer, and otherwise the last visited loop's
colour with every channel quantised by truncation — landing in [0,31] for
host channel values in [0,1]. -/
theorem attribute_resolver_spec (o : MeshObject) (t : ℕ) (q : ℚ)
    (h0 : 0 ≤ q) (h1 : q ≤ 1) :
    (write_attributes o t).1.length = o.polys.length ∧
    (write_attributes o t).1.map AttrEntry.colour = o.polys.map (specAttrColor o.vcolActive) ∧
    (write_polygons o.polys).2.length = (write_attributes o t).1.length ∧
    (0 ≤ pyInt (q * 31) ∧ pyInt (q * 31) ≤ 31) := by
  refine ⟨attrRows_length _ _ _ _, attrRows_colours _ _ _ _, ?_, pyInt_mul31_bounds h0 h1⟩
  simp [write_polygons, write_attributes, attrRows_length]

/-- Concrete check of `attribute_resolver_spec`: a one-polygon mesh with an
active vertex-colour layer and two loops resolves to the second loop's
quantised colour, and channel value 1/2 truncates into [0,31]. -/
theorem attribute_resolver_spec_witness :
    (0 : ℚ) ≤ mkRat 1 2 ∧ mkRat 1 2 ≤ 1 ∧
    ((write_attributes
        ⟨[99], false, false, true, [⟨[0, 1, 2], (0, 0, 0), false,
          [(1, 0, 0), (mkRat 1 2, 0, 1)]⟩]⟩ 0).1.length = 1 ∧
     (write_attributes
        ⟨[99], false, false, true, [⟨[0, 1, 2], (0, 0, 0), false,
          [(1, 0, 0), (mkRat 1 2, 0, 1)]⟩]⟩ 0).1.map AttrEntry.colour =
       [⟨[0, 1, 2], (0, 0, 0), false, [(1, 0, 0), (mkRat 1 2, 0, 1)]⟩].map
         (specAttrColor true) ∧
     (write_polygons [⟨[0, 1, 2], (0, 0, 0), false, [(1, 0, 0), (mkRat 1 2, 0, 1)]⟩]).2.length =
       (write_attributes
        ⟨[99], false, false, true, [⟨[0, 1, 2], (0, 0, 0), false,
          [(1, 0, 0), (mkRat 1 2, 0, 1)]⟩]⟩ 0).1.length ∧
     (0 ≤ pyInt ((mkRat 1 2) * 31) ∧ pyInt ((mkRat 1 2) * 31) ≤ 31)) :=
  ⟨by decide, by decide,
    attribute_resolver_spec
      ⟨[99], false, false, true, [⟨[0, 1, 2], (0, 0, 0), false,
        [(1, 0, 0), (mkRat 1 2, 0, 1)]⟩]⟩ 0 (mkRat 1 2) (by decide) (by decide)⟩

theorem attrRows_ids (uv vc : Bool) (ps : List Polygon) (t : ℕ) :
    (attrRows uv vc ps t).1.filterMap AttrEntry.texture =
      (List.range (ps.countP (polyTextured uv))).map (t + ·) ∧
    (attrRows uv vc ps t).2 = t + ps.countP (polyTextured uv) := by
  induction ps generalizing t with
  | nil => simp [attrRows]
  | cons p ps ih =>
    unfold attrRows
    by_cases hp : polyTextured uv p = true
    · obtain ⟨ih1, ih2⟩ := ih (t + 1)
      have hc : (p :: ps).countP (polyTextured uv) = ps.countP (polyTextured uv) + 1 :=
        List.countP_cons_of_pos _ _ hp
      refine ⟨?_, ?_⟩
      · simp only [hp, if_true, List.filterMap_cons, hc, ih1]
        rw [List.range_succ_eq_map, List.map_cons, List.map_map]
        refine congrArg₂ _ (by omega) ?_
        refine List.map_congr_left ?_
        intro i _
        simp only [Function.comp_apply]
        omega
      · simp only [hp, if_true, hc, ih2]
        omega
    · obtain ⟨ih1, ih2⟩ := ih t
      have hc : (p :: ps).countP (polyTextured uv) = ps.countP (polyTextured uv) :=
        List.countP_cons_of_neg _ _ hp
      refine ⟨?_, ?_⟩
      · simp only [hp, if_false, Bool.false_eq_true, List.filterMap_cons, hc, ih1]
      · simp only [hp, if_false, Bool.false_eq_true, hc, ih2]

/-- Object loop of export_mdl (src lines 83-87) restricted to the attribute
tables: every mesh object's rows are emitted in scene enumeration order
while the exporter instance's texture_id threads through unchanged between
objects (it is never reset inside a run). -/
def runAttrRows : List MeshObject → ℕ → List AttrEntry × ℕ
  | [], t => ([], t)
  | o :: os, t =>
    ((write_attributes o t).1 ++ (runAttrRows os (write_attributes o t).2).1,
      (runAttrRows os (write_attributes o t).2).2)

/-- MDLExporter.texture_id (src line 28) is the class default 0 read by a
fresh operator instance, so each export run starts the counter at zero. -/
def exportRunAttrs (objs : List MeshObject) : List AttrEntry × ℕ := runAttrRows objs 0

/-- Number of texture-referencing polygons of a whole scene. -/
def texturedCount (objs : List MeshObject) : ℕ :=
  (objs.map (fun o => o.polys.countP (polyTextured o.uvActive))).sum

theorem runAttrRows_ids (objs : List MeshObject) (t : ℕ) :
    (runAttrRows objs t).1.filterMap AttrEntry.texture =
      (List.range (texturedCount objs)).map (t + ·) ∧
    (runAttrRows objs t).2 = t + texturedCount objs := by
  induction objs generalizing t with
  | nil => simp [runAttrRows, texturedCount]
  | cons o os ih =>
    obtain ⟨h1, h2⟩ := attrRows_ids o.uvActive o.vcolActive o.polys t
    obtain ⟨ih1, ih2⟩ := ih (t + o.polys.countP (polyTextured o.uvActive))
    have hcnt : texturedCount (o :: os) =
        o.polys.countP (polyTextured o.uvActive) + texturedCount os := by
      simp [texturedCount]
    have hsnd : (write_attributes o t).2 = t + o.polys.countP (polyTextured o.uvActive) := h2
    refine ⟨?_, ?_⟩
    · show ((write_attributes o t).1 ++ (runAttrRows os (write_attributes o t).2).1).filterMap
          AttrEntry.texture = _
      rw [List.filterMap_append, hsnd, ih1]
      show (attrRows o.uvActive o.vcolActive o.polys t).1.filterMap AttrEntry.texture ++ _ = _
      rw [h1, hcnt, List.range_add, List.map_append, List.map_map]
      refine congrArg₂ _ rfl ?_
      refine List.map_congr_left ?_
      intro i _
      simp only [Function.comp_apply]
      omega
    · show (runAttrRows os (write_attributes o t).2).2 = _
      rw [hsnd, ih2, hcnt]
      omega

/-- C2: the texture index counter starts at zero for an export run, and the
texture indices assigned across the whole run (in object order, then mesh
polygon order) are exactly 0, 1, 2, ... — one fresh index per
texture-referencing polygon, strictly increasing by exactly 1 each time,
never reset mid-run, hence pairwise distinct; the final counter value is
the number of texture-referencing polygons of the run. -/
theorem texture_index_counter_spec (objs : List MeshObject) :
    (exportRunAttrs objs).1.filterMap AttrEntry.texture =
      List.range (texturedCount objs) ∧
    (exportRunAttrs objs).2 = texturedCount objs ∧
    ((exportRunAttrs objs).1.filterMap AttrEntry.texture).Nodup := by
  obtain ⟨h1, h2⟩ := runAttrRows_ids objs 0
  have hmap : (List.range (texturedCount objs)).map (0 + ·) =
      List.range (texturedCount objs) := by
    simp
  refine ⟨?_, by simpa using h2, ?_⟩
  · rw [show (exportRunAttrs objs).1 = (runAttrRows objs 0).1 from rfl, h1, hmap]
  · rw [show (exportRunAttrs objs).1 = (runAttrRows objs 0).1 from rfl, h1, hmap]
    exact List.nodup_range _

/-! ## Name sanitisation and emitted identifiers (claim C5) -/

/-- Texture define emitted into the .mdl header (src line 77) and into every
textured attribute row (line 137):
`''.join(base_name.split()).upper() + "_TEXTURE_NUMBER"`.  The base name is
whitespace-stripped and uppercased but never passed through _safe_name.
The appended codes spell `_TEXTURE_NUMBER`. -/
def texDefName (base : List ℕ) : List ℕ :=
  pyUpper (stripWs base) ++ [95, 84, 69, 88, 84, 85, 82, 69, 95, 78, 85, 77, 66, 69, 82]

/-- XPDATA array name suffix for one object (src line 179):
`XPD_<safe_name(obj.name)>`; the same sanitised suffix names the point,
polygon, attribute and vector arrays (lines 108, 117, 139, 178-183). -/
def xpdataName (o : MeshObject) : List ℕ := safe_name o.name

/-- C5 as stated is false on the code: with export base name "a-b"
(codes 97, 45, 98) the emitted `#define` identifier `A-B_TEXTURE_NUMBER`
contains the character '-' (code 45), which is outside `[A-Za-z0-9\s]` —
the base export name reaches this identifier without sanitisation. -/
theorem sanitization_claim_counterexample :
    45 ∈ texDefName [97, 45, 98] ∧ isKeepCode 45 = false := by decide

/-- C5 amended: _safe_name is idempotent and emits only characters of
`[A-Za-z0-9\s]`, and object names are sanitised before entering emitted
identifiers (the XPDATA/point/polygon/attribute suffix is
`safe_name(obj.name)`); but the texture-number define derived from the base
export name is only whitespace-stripped and uppercased, not sanitised, so
characters outside the class can appear in generated identifiers through
it (and the fixed templates additionally contribute underscores). -/
theorem sanitization_amended (s : List ℕ) (o : MeshObject) :
    safe_name (safe_name s) = safe_name s ∧
    (∀ c ∈ safe_name s, isKeepCode c = true) ∧
    (∀ c ∈ xpdataName o, isKeepCode c = true) ∧
    texDefName s =
      pyUpper (stripWs s) ++ [95, 84, 69, 88, 84, 85, 82, 69, 95, 78, 85, 77, 66, 69, 82] :=
  ⟨safe_name_idem s, fun _ hc => mem_safe_name_keep hc,
    fun _ hc => mem_safe_name_keep hc, rfl⟩

/-- Concrete check of `sanitization_amended`: sanitising "a!" (codes 97, 33)
gives "a", sanitising again is stable, and 97 is a kept character both in
the sanitised base name and in the object-name identifier suffix. -/
theorem sanitization_amended_witness :
    safe_name (safe_name [97, 33]) = safe_name [97, 33] ∧
    isKeepCode 97 = true ∧ isKeepCode 97 = true :=
  ⟨(sanitization_amended [97, 33] ⟨[97, 33], false, false, false, []⟩).1,
    (sanitization_amended [97, 33] ⟨[97, 33], false, false, false, []⟩).2.1 97 (by decide),
    (sanitization_amended [97, 33] ⟨[97, 33], false, false, false, []⟩).2.2.1 97 (by decide)⟩

/-! ## HierarchyCodeGenerator (claims C6 and C7) -/

/-- C-file identifier base derived from one name (src lines 227, 232, 246,
250, 275, 287, 303): `self._safe_name(''.join(name.split()).lower())`. -/
def cNameOf (s : List ℕ) : List ℕ := safe_name (pyLower (stripWs s))

/-- One generated draw function: its name base (the `c_name.capitalize()`
part of `<Name>_Draw`), the XPD_ suffix of its own `slPutPolygonX` call,
and the name bases of the child draw calls it issues. -/
structure DrawFunction where
  fnName : List ℕ
  putTarget : Option (List ℕ)
  calls : List (List ℕ)
deriving DecidableEq

/-- CFileWriter._write_model_draw_functions (src lines 266-282): with more
than one mesh object, every object having a parent gets its own draw
function drawing `XPD_<safe_name(obj.name)>` and calling nothing; with one
object (or none) nothing is emitted. -/
def write_model_draw_functions (objs : List MeshObject) : List DrawFunction :=
  if 1 < objs.length then
    (objs.filter (·.hasParent)).map
      (fun o => ⟨pyCapitalize (cNameOf o.name), some (safe_name o.name), []⟩)
  else []

/-- CFileWriter._write_main_draw_function (src lines 284-309): emitted only
for a nonempty base name; it always issues its own `slPutPolygonX` on
`XPD_<safe_name(c_name.capitalize())>` and, when more than one mesh object
exists, additionally calls every with-parent object's draw function. -/
def write_main_draw_function (objs : List MeshObject) (base : List ℕ) :
    Option DrawFunction :=
  if base = [] then none
  else
    some ⟨pyCapitalize (cNameOf base), some (safe_name (pyCapitalize (cNameOf base))),
      if 1 < objs.length then
        (objs.filter (·.hasParent)).map (fun o => pyCapitalize (cNameOf o.name))
      else []⟩

/-- C6: in a scene with more than one mesh object every non-root (i.e.
with-parent) mesh object is emitted as a flat sibling with its own draw
function, and the root draw function's call list is exactly the list of
those child draw functions (in the same order); in a single-object scene no
child draw functions are emitted, the root calls no children, and the root
still contains its sole inlined polygon-draw call. -/
theorem hierarchy_draw_spec (objs : List MeshObject) (base : List ℕ) (hb : base ≠ []) :
    (write_model_draw_functions objs).map DrawFunction.fnName =
      (if 1 < objs.length then
        (objs.filter (·.hasParent)).map (fun o => pyCapitalize (cNameOf o.name))
      else []) ∧
    ∃ root : DrawFunction,
      write_main_draw_function objs base = some root ∧
      root.putTarget.isSome = true ∧
      root.calls = (write_model_draw_functions objs).map DrawFunction.fnName := by
  have hmap : (write_model_draw_functions objs).map DrawFunction.fnName =
      (if 1 < objs.length then
        (objs.filter (·.hasParent)).map (fun o => pyCapitalize (cNameOf o.name))
      else []) := by
    unfold write_model_draw_functions
    split
    · rw [List.map_map]
      rfl
    · rfl
  refine ⟨hmap, ⟨pyCapitalize (cNameOf base), some (safe_name (pyCapitalize (cNameOf base))),
    if 1 < objs.length then
      (objs.filter (·.hasParent)).map (fun o => pyCapitalize (cNameOf o.name))
    else []⟩, ?_, rfl, hmap.symm⟩
  unfold write_main_draw_function
  rw [if_neg hb]

/-- Concrete check of `hierarchy_draw_spec` on a two-object scene (a
parentless object "a" and a with-parent object "b") with base name "m":
the child function for "b" is emitted and the root calls exactly it. -/
theorem hierarchy_draw_spec_witness :
    ([97] : List ℕ) ≠ [] ∧
    ((write_model_draw_functions
        [⟨[97], false, false, false, []⟩, ⟨[98], true, false, false, []⟩]).map
        DrawFunction.fnName =
      (if 1 < ([⟨[97], false, false, false, []⟩,
          ⟨[98], true, false, false, []⟩] : List MeshObject).length then
        (([⟨[97], false, false, false, []⟩,
          ⟨[98], true, false, false, []⟩] : List MeshObject).filter
            (·.hasParent)).map (fun o => pyCapitalize (cNameOf o.name))
      else []) ∧
    ∃ root : DrawFunction,
      write_main_draw_function
        [⟨[97], false, false, false, []⟩, ⟨[98], true, false, false, []⟩] [97] = some root ∧
      root.putTarget.isSome = true ∧
      root.calls = (write_model_draw_functions
        [⟨[97], false, false, false, []⟩, ⟨[98], true, false, false, []⟩]).map
          DrawFunction.fnName) :=
  ⟨by decide,
    hierarchy_draw_spec
      [⟨[97], false, false, false, []⟩, ⟨[98], true, false, false, []⟩] [97] (by decide)⟩

/-- Per-object transform-state initial values written by
CFileWriter._write_model_property_initialisation (src lines 210-216):
all angles `DEGtoANG(0.0)`, X and Y positions `toFIXED(0.0)`, Z position
`toFIXED(120.0)`, all scales `toFIXED(1.0)`. -/
structure InitRecord where
  ang : ℚ × ℚ × ℚ
  posX : ℚ
  posY : ℚ
  posZ : ℚ
  scl : ℚ × ℚ × ℚ
deriving DecidableEq

/-- The one record _write_model_property_initialisation writes, identical
for every object it is called on. -/
def modelPropertyInit : InitRecord := ⟨(0, 0, 0), 0, 0, 120, (1, 1, 1)⟩

/-- CFileWriter._write_model_properties (src lines 218-253): with more than
one mesh object every with-parent object is initialised first, then the
root (named from the base name) — all with the same record. -/
def write_model_properties (objs : List MeshObject) (base : List ℕ) :
    List (List ℕ × InitRecord) :=
  (if 1 < objs.length then
    (objs.filter (·.hasParent)).map (fun o => (cNameOf o.name, modelPropertyInit))
  else []) ++ [(cNameOf base, modelPropertyInit)]

/-- C7 as stated is false on the code: in a two-object scene the non-root
object "b" receives the same initialiser record as the root, with Z
position 120 (src line 215 runs for children and root alike), so non-root
positions are not fully zeroed. -/
theorem initializer_claim_counterexample :
    (write_model_properties
        [⟨[97], false, false, false, []⟩, ⟨[98], true, false, false, []⟩] [109]).head? =
      some ([98], modelPropertyInit) ∧
    modelPropertyInit.posZ = 120 ∧ (120 : ℚ) ≠ 0 := by
  refine ⟨by decide, rfl, by norm_num⟩

/-- C7 amended: every emitted initialiser entry — root and non-root alike —
zeroes the rotation and the X/Y positions, sets the scale to identity, and
sets the Z position to the camera-distance constant 120. -/
theorem initializer_amended (objs : List MeshObject) (base : List ℕ) :
    ∀ e ∈ write_model_properties objs base,
      e.2.ang = (0, 0, 0) ∧ e.2.posX = 0 ∧ e.2.posY = 0 ∧ e.2.posZ = 120 ∧
        e.2.scl = (1, 1, 1) := by
  intro e he
  have : e.2 = modelPropertyInit := by
    unfold write_model_properties at he
    rcases List.mem_append.mp he with h | h
    · split at h
      · rcases List.mem_map.mp h with ⟨o, _, rfl⟩
        rfl
      · simp at h
    · simp only [List.mem_singleton] at h
      rw [h]
  rw [this]
  exact ⟨rfl, rfl, rfl, rfl, rfl⟩

/-- Concrete check of `initializer_amended` at a one-object scene: the root
entry's record zeroes rotation and X/Y, has Z = 120 and identity scale. -/
theorem initializer_amended_witness :
    (([109], modelPropertyInit) ∈ write_model_properties
        [⟨[97], false, false, false, []⟩] [109]) ∧
    (([109], modelPropertyInit) : List ℕ × InitRecord).2.ang = (0, 0, 0) ∧
    (([109], modelPropertyInit) : List ℕ × InitRecord).2.posZ = 120 :=
  ⟨by decide,
    (initializer_amended [⟨[97], false, false, false, []⟩] [109]
      ([109], modelPropertyInit) (by decide)).1,
    (initializer_amended [⟨[97], false, false, false, []⟩] [109]
      ([109], modelPropertyInit) (by decide)).2.2.2.1⟩

/-! ## ExportOrchestrator failure boundary (claim C9) -/

/-- One observable event of the geometry pass: a chunk written into the
.mdl file by _write_model_data, or the console report
`print("Error processing {...}")` of the except branch (src line 87). -/
inductive ExportEvent where
  | chunk (payload : ℕ)
  | errorReport (msg : ℕ)
deriving DecidableEq

/-- Object loop of export_mdl (src lines 82-87): each object's
_write_model_data call sits inside `try/except Exception`.  The writer `w`
models the possibly-raising body: `(w o).1` is what the object's writer
emitted into the file before returning or raising, `(w o).2` the exception
payload when it raised.  On an exception the message is printed and the
loop continues with the next object; nothing aborts the pass. -/
def export_mdl_objects (w : MeshObject → List ℕ × Option ℕ) :
    List MeshObject → List ExportEvent
  | [] => []
  | o :: os =>
    ((w o).1.map ExportEvent.chunk ++
        ((w o).2.elim [] (fun e => [ExportEvent.errorReport e]))) ++
      export_mdl_objects w os

/-- C9: for every scene and every behaviour of the per-object writer, the
geometry pass processes each mesh object in scene enumeration order and
its output is exactly the concatenation of every object's own events — an
object that raises contributes its partial output followed by one error
report (the rest of its output is abandoned), and every later object is
still processed identically, so a failure never aborts the pass. -/
theorem per_object_failure_boundary (w : MeshObject → List ℕ × Option ℕ)
    (objs : List MeshObject) :
    export_mdl_objects w objs =
      objs.flatMap (fun o => (w o).1.map ExportEvent.chunk ++
        ((w o).2.elim [] (fun e => [ExportEvent.errorReport e]))) := by
  induction objs with
  | nil => rfl
  | cons o os ih =>
    simp only [export_mdl_objects, List.flatMap_cons, ih]

/-! ## Root draw target vs. geometry XPDATA names (claim C10) -/

/-- XPD_ suffix referenced by the root draw function's `slPutPolygonX`
(src lines 287 and 295): `self._safe_name(c_name.capitalize())` where
`c_name = self._safe_name(''.join(self.base_name.split()).lower())`. -/
def rootPutTarget (base : List ℕ) : List ℕ :=
  safe_name (pyCapitalize (cNameOf base))

/-- Root put target as derived in the claim's wording: the base name with
whitespace removed, lowercased, sanitised, then first letter capitalised. -/
def specRootTarget (base : List ℕ) : List ℕ :=
  pyCapitalize (safe_name (pyLower (stripWs base)))

/-- C10: the root draw function's polygon-draw call references
`XPD_<N>` where N is derived solely from the export base name — whitespace
removed, lowercased, sanitised, then first letter capitalised (the outer
re-sanitisation of the source is a no-op because capitalising a sanitised
string keeps every character in the sanitiser's class) — and never from a
scene object's name; it coincides with an XPDATA array name of the
geometry artifact exactly when some mesh object's sanitised name equals
that derived string. -/
theorem root_put_target_spec (base : List ℕ) (objs : List MeshObject) :
    rootPutTarget base = specRootTarget base ∧
    (rootPutTarget base ∈ objs.map xpdataName ↔
      ∃ o ∈ objs, safe_name o.name = rootPutTarget base) := by
  constructor
  · unfold rootPutTarget specRootTarget cNameOf
    exact safe_name_eq_self (pyCapitalize_keep (fun c hc => mem_safe_name_keep hc))
  · constructor
    · intro h
      rcases List.mem_map.mp h with ⟨o, ho, he⟩
      exact ⟨o, ho, he⟩
    · intro ⟨o, ho, he⟩
      exact List.mem_map.mpr ⟨o, ho, he⟩

end RatComp

end SGLExport
